import Mathlib

/-!
Shallow embedding of the in-memory CRUD services of the noa-terra/noanoa
repository (src/itemsService.js, src/productsService.js, with the
controllers in src/itemsController.js as callers).  JavaScript numbers are
modelled exactly as rationals extended with NaN and the two infinities;
JavaScript values reaching the service API are modelled by `JsVal`.
Machine-level floating point rounding is not modelled: all arithmetic in
the claims under study is exact on the inputs involved.
-/

namespace Noanoa

/-- A JavaScript number: NaN, +Infinity, -Infinity or a finite value,
finite values being modelled as exact rationals. -/
inductive JSNum where
  | nan
  | inf
  | ninf
  | fin (q : ℚ)
deriving DecidableEq, Repr

/-- A JavaScript value as it can reach the service layer: `undefined`,
`null`, a boolean, a number or a string.  Objects and arrays are modelled
structurally at each call site (payload records, lists). -/
inductive JsVal where
  | undef
  | null
  | bool (b : Bool)
  | num (n : JSNum)
  | str (s : String)
deriving DecidableEq, Repr

/-- The whitespace characters stripped by `String.prototype.trim` and by
string-to-number coercion (ASCII fragment, which covers every string in
the repository and its tests). -/
def isJsWhitespace (c : Char) : Bool :=
  c = ' ' || c = '\t' || c = '\n' || c = '\r' || c = '\x0b' || c = '\x0c'

/-- Embedding of `String.prototype.trim`. -/
def trimStr (s : String) : String :=
  String.mk (((s.toList.dropWhile isJsWhitespace).reverse.dropWhile isJsWhitespace).reverse)

/-- ASCII lower-casing of one character, the fragment of
`String.prototype.toLowerCase` exercised by the repository's data. -/
def lowerChar (c : Char) : Char :=
  if 'A' ≤ c ∧ c ≤ 'Z' then Char.ofNat (c.toNat + 32) else c

/-- Embedding of `String.prototype.toLowerCase` (ASCII fragment). -/
def lowerStr (s : String) : String :=
  String.mk (s.toList.map lowerChar)

/-- Numeric value of a list of decimal digit characters. -/
def digitsVal (cs : List Char) : ℕ :=
  cs.foldl (fun a c => 10 * a + (c.toNat - 48)) 0

/-- Parse an unsigned decimal literal (`"12"`, `"12.5"`, `".5"`, `"12."`),
the string-to-number fragment JavaScript's `Number` applies to plain
decimal strings.  Exponent, hex, octal, binary and `Infinity` spellings do
not occur in the repository's inputs and are not modelled: they would
parse to NaN here. -/
def parseUnsigned (cs : List Char) : Option ℚ :=
  let intPart := cs.takeWhile (fun c => c.isDigit)
  let rest := cs.dropWhile (fun c => c.isDigit)
  match rest with
  | [] => if intPart.isEmpty then none else some ((digitsVal intPart : ℚ))
  | '.' :: frac =>
      if frac.all (fun c => c.isDigit) && !(intPart.isEmpty && frac.isEmpty) then
        some ((digitsVal intPart : ℚ) + (digitsVal frac : ℚ) / ((10 : ℚ) ^ frac.length))
      else none
  | _ => none

/-- `Number(s)` for a string `s`: trim, empty goes to `0`, otherwise parse
an optional sign followed by a decimal literal, anything else is NaN. -/
def parseJsNumber (s : String) : JSNum :=
  let cs := ((s.toList.dropWhile isJsWhitespace).reverse.dropWhile isJsWhitespace).reverse
  match cs with
  | [] => .fin 0
  | '-' :: rest =>
      match parseUnsigned rest with
      | some q => .fin (-q)
      | none => .nan
  | '+' :: rest =>
      match parseUnsigned rest with
      | some q => .fin q
      | none => .nan
  | _ =>
      match parseUnsigned cs with
      | some q => .fin q
      | none => .nan

/-- `Number(v)`: the ToNumber coercion for the values of `JsVal`. -/
def JsVal.toNumber : JsVal → JSNum
  | .undef => .nan
  | .null => .fin 0
  | .bool b => .fin (if b then 1 else 0)
  | .num n => n
  | .str s => parseJsNumber s

/-- `Number.isNaN`. -/
def JSNum.isNaN : JSNum → Bool
  | .nan => true
  | _ => false

/-- Strict equality `n === k` between a JavaScript number and a record id
(a non-negative integer).  NaN and the infinities never equal an id. -/
def JSNum.eqNat (n : JSNum) (k : ℕ) : Bool :=
  match n with
  | .fin q => q = (k : ℚ)
  | _ => false

/-- Strict equality `v === k` between an arbitrary JavaScript value and a
numeric record id: only a number can be strictly equal to a number. -/
def JsVal.strictEqNat (v : JsVal) (k : ℕ) : Bool :=
  match v with
  | .num n => n.eqNat k
  | _ => false

/-- JavaScript truthiness of a value. -/
def JsVal.truthy : JsVal → Bool
  | .undef => false
  | .null => false
  | .bool b => b
  | .num .nan => false
  | .num (.fin q) => q ≠ 0
  | .num _ => true
  | .str s => s ≠ ""

/-- String rendering of a JavaScript number, used only inside error
message text (non-integral finite values are rendered as fractions, a
departure from JS decimal rendering that no claim observes). -/
def JSNum.display : JSNum → String
  | .nan => "NaN"
  | .inf => "Infinity"
  | .ninf => "-Infinity"
  | .fin q =>
      if q.den = 1 then
        if 0 ≤ q.num then toString q.num.toNat else "-" ++ toString (-q.num).toNat
      else toString q.num ++ "/" ++ toString q.den

/-- String rendering of a JavaScript value inside template literals. -/
def JsVal.display : JsVal → String
  | .undef => "undefined"
  | .null => "null"
  | .bool b => if b then "true" else "false"
  | .num n => n.display
  | .str s => s

/-- `Number(x) || d`: NaN and zero are falsy and replaced by the default. -/
def jsOrDefault (n : JSNum) (d : ℚ) : JSNum :=
  match n with
  | .nan => .fin d
  | .fin q => if q = 0 then .fin d else .fin q
  | x => x

/-- `Math.max` on two numbers (NaN absorbs). -/
def jsMax : JSNum → JSNum → JSNum
  | .nan, _ => .nan
  | _, .nan => .nan
  | .inf, _ => .inf
  | _, .inf => .inf
  | .ninf, x => x
  | x, .ninf => x
  | .fin p, .fin q => .fin (max p q)

/-- `Math.min` on two numbers (NaN absorbs). -/
def jsMin : JSNum → JSNum → JSNum
  | .nan, _ => .nan
  | _, .nan => .nan
  | .ninf, _ => .ninf
  | _, .ninf => .ninf
  | .inf, x => x
  | x, .inf => x
  | .fin p, .fin q => .fin (min p q)

/-- Addition of JavaScript numbers. -/
def jsAdd : JSNum → JSNum → JSNum
  | .nan, _ => .nan
  | _, .nan => .nan
  | .inf, .ninf => .nan
  | .ninf, .inf => .nan
  | .inf, _ => .inf
  | _, .inf => .inf
  | .ninf, _ => .ninf
  | _, .ninf => .ninf
  | .fin p, .fin q => .fin (p + q)

/-- Subtraction of JavaScript numbers. -/
def jsSub : JSNum → JSNum → JSNum
  | .nan, _ => .nan
  | _, .nan => .nan
  | .inf, .inf => .nan
  | .ninf, .ninf => .nan
  | .inf, _ => .inf
  | _, .inf => .ninf
  | .ninf, _ => .ninf
  | _, .ninf => .inf
  | .fin p, .fin q => .fin (p - q)

/-- Multiplication of JavaScript numbers (an infinity times zero is NaN). -/
def jsMul : JSNum → JSNum → JSNum
  | .nan, _ => .nan
  | _, .nan => .nan
  | .inf, .inf => .inf
  | .inf, .ninf => .ninf
  | .ninf, .inf => .ninf
  | .ninf, .ninf => .inf
  | .inf, .fin q => if q = 0 then .nan else if 0 < q then .inf else .ninf
  | .fin q, .inf => if q = 0 then .nan else if 0 < q then .inf else .ninf
  | .ninf, .fin q => if q = 0 then .nan else if 0 < q then .ninf else .inf
  | .fin q, .ninf => if q = 0 then .nan else if 0 < q then .ninf else .inf
  | .fin p, .fin q => .fin (p * q)

/-- Division of JavaScript numbers (division by zero yields an infinity
or NaN as in IEEE arithmetic, without signed zero). -/
def jsDiv : JSNum → JSNum → JSNum
  | .nan, _ => .nan
  | _, .nan => .nan
  | .inf, .inf => .nan
  | .inf, .ninf => .nan
  | .ninf, .inf => .nan
  | .ninf, .ninf => .nan
  | .inf, .fin q => if 0 ≤ q then .inf else .ninf
  | .ninf, .fin q => if 0 ≤ q then .ninf else .inf
  | .fin _, .inf => .fin 0
  | .fin _, .ninf => .fin 0
  | .fin p, .fin q =>
      if q = 0 then (if p = 0 then .nan else if 0 < p then .inf else .ninf)
      else .fin (p / q)

/-- `Math.round`: half-up rounding on finite values. -/
def jsRound : JSNum → JSNum
  | .fin q => .fin ((⌊q + 1/2⌋ : ℤ) : ℚ)
  | x => x

/-- `Math.ceil` on JavaScript numbers. -/
def jsCeil : JSNum → JSNum
  | .fin q => .fin ((⌈q⌉ : ℤ) : ℚ)
  | x => x

/-- The comparison `a < b` on JavaScript numbers (false whenever NaN is
involved). -/
def jsLtB : JSNum → JSNum → Bool
  | .nan, _ => false
  | _, .nan => false
  | .inf, _ => false
  | _, .inf => true
  | .ninf, .ninf => false
  | .ninf, _ => true
  | _, .ninf => false
  | .fin p, .fin q => p < q

/-- The test `n < 0` on a JavaScript number. -/
def JSNum.ltZero (n : JSNum) : Bool := jsLtB n (.fin 0)

/-- Truncation toward zero clamped to `[0, len]`, the index arithmetic of
`Array.prototype.slice` (ToIntegerOrInfinity followed by clamping). -/
def sliceIndex (len : ℕ) (n : JSNum) : ℕ :=
  match n with
  | .nan => 0
  | .ninf => 0
  | .inf => len
  | .fin q => min len (Int.toNat (if 0 ≤ q then ⌊q⌋ else ⌈q⌉))

/-- Decidable equality for `Except`, so that concrete service outcomes can
be checked by `decide`. -/
instance {e a : Type} [DecidableEq e] [DecidableEq a] : DecidableEq (Except e a)
  | .ok x, .ok y => if h : x = y then .isTrue (by rw [h]) else .isFalse (by simp [h])
  | .ok _, .error _ => .isFalse (by simp)
  | .error _, .ok _ => .isFalse (by simp)
  | .error x, .error y => if h : x = y then .isTrue (by rw [h]) else .isFalse (by simp [h])

/-- The typed and untyped errors thrown by the services.
`validation` is `ValidationError` (statusCode 400), `notFound` is the
per-entity `…NotFoundError` (statusCode 404) carrying the entity name and
the numeric id, and `typeError` is an untyped runtime `TypeError`, which
carries no `statusCode` field. -/
inductive Err where
  | validation (msg : String)
  | notFound (entity : String) (id : JSNum)
  | typeError (msg : String)
deriving DecidableEq, Repr

/-- The `statusCode` classification carried by an error object: 400 for
`ValidationError`, 404 for `…NotFoundError`, none for a bare `TypeError`. -/
def Err.statusCode : Err → Option ℕ
  | .validation _ => some 400
  | .notFound _ _ => some 404
  | .typeError _ => none

/-- A record of the items store (src/itemsService.js). -/
structure Item where
  id : ℕ
  name : String
  createdAt : String
  updatedAt : String
  status : String
deriving DecidableEq, Repr

/-- The mutable state of `ItemsService`: the `items` array and the
`nextId` counter. -/
structure ItemsState where
  items : List Item
  nextId : ℕ
deriving DecidableEq, Repr

/-- The `ItemsService` constructor: two seed records and `nextId = 3`.
`now` stands for `new Date().toISOString()` at construction time. -/
def ItemsService.init (now : String) : ItemsState :=
  { items := [
      { id := 1, name := "First item", createdAt := now, updatedAt := now, status := "active" },
      { id := 2, name := "Another item", createdAt := now, updatedAt := now, status := "active" }],
    nextId := 3 }

/-- `ItemsService.validateName`: requires a truthy string (a non-empty
string), trims it, and bounds the trimmed length by 100. -/
def ItemsState.validateName (name : JsVal) : Except Err String :=
  match name with
  | .str s =>
      if s = "" then .error (.validation "Item name must be a non-empty string")
      else
        let trimmed := trimStr s
        if trimmed.length = 0 then .error (.validation "Item name cannot be empty")
        else if trimmed.length > 100 then .error (.validation "Item name cannot exceed 100 characters")
        else .ok trimmed
  | _ => .error (.validation "Item name must be a non-empty string")

/-- `ItemsService.getById`: coerce the id with `Number`, reject NaN with a
`ValidationError`, otherwise return the first record with that id or fail
with `ItemNotFoundError`. -/
def ItemsState.getById (s : ItemsState) (id : JsVal) : Except Err Item :=
  let itemId := id.toNumber
  if itemId.isNaN then .error (.validation ("Invalid id: " ++ id.display))
  else
    match s.items.find? (fun it => itemId.eqNat it.id) with
    | some it => .ok it
    | none => .error (.notFound "Item" itemId)

/-- `ItemsService.create`: validate the name, reject a case-insensitive
duplicate, then append `{id: nextId++, name, timestamps, status:"active"}`.
`now` stands for `new Date().toISOString()` during the call. -/
def ItemsState.create (s : ItemsState) (now : String) (name : JsVal) :
    Except Err Item × ItemsState :=
  match ItemsState.validateName name with
  | .error e => (.error e, s)
  | .ok validatedName =>
      match s.items.find? (fun it => lowerStr it.name == lowerStr validatedName) with
      | some _ =>
          (.error (.validation ("Item with name \"" ++ validatedName ++ "\" already exists")), s)
      | none =>
          let item : Item :=
            { id := s.nextId, name := validatedName, createdAt := now, updatedAt := now,
              status := "active" }
          (.ok item, { items := s.items ++ [item], nextId := s.nextId + 1 })

/-- The partial update payload read by `ItemsService.update` and the bulk
update operations: the `id`, `name` and `status` properties of the
JavaScript object, `undefined` when absent. -/
structure ItemUpdates where
  id : JsVal
  name : JsVal
  status : JsVal
deriving DecidableEq, Repr

/-- Replace the first record with the given id by `f` applied to it
(mutation of the object found by `find` in the JS source). -/
def setFirstById (items : List Item) (target : ℕ) (f : Item → Item) : List Item :=
  match items with
  | [] => []
  | it :: rest => if it.id = target then f it :: rest else it :: setFirstById rest target f

/-- `ItemsService.update`: load the record via `getById`; if `name` is
present, validate it and reject a case-insensitive duplicate among records
whose id is not strictly equal (`!==`) to the RAW id argument, then write
the name; if `status` is present, check membership in
active/archived/deleted, then write it; finally refresh `updatedAt`.
Mutations performed before a later failure persist, as in the source. -/
def ItemsState.update (s : ItemsState) (now : String) (id : JsVal) (u : ItemUpdates) :
    Except Err Item × ItemsState :=
  match s.getById id with
  | .error e => (.error e, s)
  | .ok item0 =>
      let nameRes : Except Err (Item × List Item) :=
        if u.name = .undef then .ok (item0, s.items)
        else
          match ItemsState.validateName u.name with
          | .error e => .error e
          | .ok vn =>
              match s.items.find? (fun i =>
                  !(id.strictEqNat i.id) && (lowerStr i.name == lowerStr vn)) with
              | some _ => .error (.validation ("Item with name \"" ++ vn ++ "\" already exists"))
              | none =>
                  .ok ({ item0 with name := vn },
                       setFirstById s.items item0.id (fun it => { it with name := vn }))
      match nameRes with
      | .error e => (.error e, s)
      | .ok (item1, items1) =>
          let statusRes : Except Err (Item × List Item) :=
            if u.status = .undef then .ok (item1, items1)
            else
              match u.status with
              | .str st =>
                  if st = "active" ∨ st = "archived" ∨ st = "deleted" then
                    .ok ({ item1 with status := st },
                         setFirstById items1 item0.id (fun it => { it with status := st }))
                  else .error (.validation "Invalid status. Must be one of: active, archived, deleted")
              | _ => .error (.validation "Invalid status. Must be one of: active, archived, deleted")
          match statusRes with
          | .error e => (.error e, { s with items := items1 })
          | .ok (item2, items2) =>
              (.ok { item2 with updatedAt := now },
               { s with items :=
                   setFirstById items2 item0.id (fun it => { it with updatedAt := now }) })

/-- Remove the first record whose id is strictly equal to the coerced id
(`splice` at the `findIndex` position). -/
def removeFirstMatching (items : List Item) (n : JSNum) : List Item :=
  match items with
  | [] => []
  | it :: rest => if n.eqNat it.id then rest else it :: removeFirstMatching rest n

/-- `ItemsService.delete`: reject a NaN id with `ValidationError`, fail
with `ItemNotFoundError` when no record matches, otherwise splice the
record out and return the deleted id. -/
def ItemsState.delete (s : ItemsState) (id : JsVal) : Except Err JSNum × ItemsState :=
  let itemId := id.toNumber
  if itemId.isNaN then (.error (.validation ("Invalid id: " ++ id.display)), s)
  else if s.items.any (fun it => itemId.eqNat it.id) then
    (.ok itemId, { s with items := removeFirstMatching s.items itemId })
  else (.error (.notFound "Item" itemId), s)

/-- The status filter shared by `getAll` and `getPaginated`: a truthy
`status` argument keeps only records with exactly that status (`some st`
models a string argument, `none` models null/undefined; the empty string
is falsy and filters nothing). -/
def filterByStatus (items : List Item) (status : Option String) : List Item :=
  match status with
  | some st => if st = "" then items else items.filter (fun it => it.status == st)
  | none => items

/-- The value returned by `ItemsService.getPaginated`: the page of records
plus the pagination metadata object. -/
structure PageResult where
  items : List Item
  page : JSNum
  limit : JSNum
  total : ℕ
  totalPages : JSNum
  hasNext : Bool
  hasPrev : Bool
deriving DecidableEq, Repr

/-- `ItemsService.getPaginated`: clamp `page` to at least 1 and `limit`
into `[1, 100]` (with `|| 1` and `|| 10` defaults for NaN and 0), filter
by a truthy `status`, and slice `[offset, offset + limit)` where
`offset = (page - 1) * limit`.  `status` is `some st` for a string
argument and `none` for null/undefined. -/
def ItemsState.getPaginated (s : ItemsState) (page limit : JsVal) (status : Option String) :
    PageResult :=
  let pageNum := jsMax (.fin 1) (jsOrDefault page.toNumber 1)
  let limitNum := jsMax (.fin 1) (jsMin (.fin 100) (jsOrDefault limit.toNumber 10))
  let filteredItems := filterByStatus s.items status
  let total : ℕ := filteredItems.length
  let totalPages := jsCeil (jsDiv (.fin (total : ℚ)) limitNum)
  let offset := jsMul (jsSub pageNum (.fin 1)) limitNum
  let paginatedItems :=
    (filteredItems.take (sliceIndex total (jsAdd offset limitNum))).drop (sliceIndex total offset)
  { items := paginatedItems, page := pageNum, limit := limitNum, total := total,
    totalPages := totalPages, hasNext := jsLtB pageNum totalPages,
    hasPrev := jsLtB (.fin 1) pageNum }

/-- The per-element loop of `ItemsService.bulkCreate`: each create is
attempted independently, failures are collected and do not stop the loop.
Returns the created records, the collected errors, and the final state. -/
def bulkCreateLoop (now : String) : ItemsState → List JsVal → List Item × List Err × ItemsState
  | s, [] => ([], [], s)
  | s, n :: rest =>
      match s.create now n with
      | (.ok item, s') =>
          let (cs, es, sf) := bulkCreateLoop now s' rest
          (item :: cs, es, sf)
      | (.error e, s') =>
          let (cs, es, sf) := bulkCreateLoop now s' rest
          (cs, e :: es, sf)

/-- `ItemsService.bulkCreate`: bounds-check the array, then run the
independent per-element loop. -/
def ItemsState.bulkCreate (s : ItemsState) (now : String) (names : List JsVal) :
    Except Err (List Item × List Err) × ItemsState :=
  if names.length = 0 then (.error (.validation "Names must be a non-empty array"), s)
  else if names.length > 100 then
    (.error (.validation "Cannot create more than 100 items at once"), s)
  else
    let (cs, es, sf) := bulkCreateLoop now s names
    (.ok (cs, es), sf)

/-- The per-element loop of `ItemsService.bulkUpdate`: entries with a
falsy `id` collect a missing-id error; other entries run `update`, whose
partial mutations persist even when the entry fails. -/
def bulkUpdateLoop (now : String) : ItemsState → List ItemUpdates → List Item × List Err × ItemsState
  | s, [] => ([], [], s)
  | s, u :: rest =>
      if u.id.truthy then
        match s.update now u.id u with
        | (.ok item, s') =>
            let (us, es, sf) := bulkUpdateLoop now s' rest
            (item :: us, es, sf)
        | (.error e, s') =>
            let (us, es, sf) := bulkUpdateLoop now s' rest
            (us, e :: es, sf)
      else
        let (us, es, sf) := bulkUpdateLoop now s rest
        (us, .validation "Missing required field: id" :: es, sf)

/-- `ItemsService.bulkUpdate`: bounds-check the array, then run the
independent per-element loop. -/
def ItemsState.bulkUpdate (s : ItemsState) (now : String) (updates : List ItemUpdates) :
    Except Err (List Item × List Err) × ItemsState :=
  if updates.length = 0 then (.error (.validation "Updates must be a non-empty array"), s)
  else if updates.length > 100 then
    (.error (.validation "Cannot update more than 100 items at once"), s)
  else
    let (us, es, sf) := bulkUpdateLoop now s updates
    (.ok (us, es), sf)

/-- The per-element loop of `ItemsService.bulkDelete`. -/
def bulkDeleteLoop : ItemsState → List JsVal → List JSNum × List Err × ItemsState
  | s, [] => ([], [], s)
  | s, id :: rest =>
      match s.delete id with
      | (.ok deletedId, s') =>
          let (ds, es, sf) := bulkDeleteLoop s' rest
          (deletedId :: ds, es, sf)
      | (.error e, s') =>
          let (ds, es, sf) := bulkDeleteLoop s' rest
          (ds, e :: es, sf)

/-- `ItemsService.bulkDelete`: bounds-check the array, then run the
independent per-element loop. -/
def ItemsState.bulkDelete (s : ItemsState) (ids : List JsVal) :
    Except Err (List JSNum × List Err) × ItemsState :=
  if ids.length = 0 then (.error (.validation "Ids must be a non-empty array"), s)
  else if ids.length > 100 then
    (.error (.validation "Cannot delete more than 100 items at once"), s)
  else
    let (ds, es, sf) := bulkDeleteLoop s ids
    (.ok (ds, es), sf)

/-- The transactional loop of `ItemsService.bulkCreateTransactional` with
rollback enabled: creates run in sequence and the first failure aborts. -/
def txCreateLoop (now : String) : ItemsState → List JsVal → Except Err (List Item × ItemsState)
  | s, [] => .ok ([], s)
  | s, n :: rest =>
      match s.create now n with
      | (.ok item, s') =>
          match txCreateLoop now s' rest with
          | .ok (cs, sf) => .ok (item :: cs, sf)
          | .error e => .error e
      | (.error e, _) => .error e

/-- `ItemsService.bulkCreateTransactional`: with rollback enabled (the
default), the first create failure restores the snapshot of `items` and
`nextId` and then calls `this._rebuildIndexes()`, a method that does not
exist, so the call terminates with an untyped `TypeError` after the state
has been restored; with rollback disabled it behaves like `bulkCreate`
with a `transactional: false` marker. -/
def ItemsState.bulkCreateTransactional (s : ItemsState) (now : String) (names : List JsVal)
    (rollback : Bool) : Except Err (List Item × List Err × Bool) × ItemsState :=
  if names.length = 0 then (.error (.validation "Names must be a non-empty array"), s)
  else if names.length > 100 then
    (.error (.validation "Cannot create more than 100 items at once"), s)
  else if rollback then
    match txCreateLoop now s names with
    | .ok (cs, sf) => (.ok (cs, [], true), sf)
    | .error _ => (.error (.typeError "this._rebuildIndexes is not a function"), s)
  else
    let (cs, es, sf) := bulkCreateLoop now s names
    (.ok (cs, es, false), sf)

/-- `ItemsService.bulkUpdateWithValidation`: after the array bounds
checks, the pre-validation loop reads `this.indexes.byId` for the first
entry with a truthy `id`; `this.indexes` is never initialized, so that
read throws an untyped `TypeError` and no change is made.  When every
entry has a falsy `id`, the loop collects one missing-id error per entry
and returns them without making changes. -/
def ItemsState.bulkUpdateWithValidation (s : ItemsState) (updates : List ItemUpdates) :
    Except Err (List Item × List Err) × ItemsState :=
  if updates.length = 0 then (.error (.validation "Updates must be a non-empty array"), s)
  else if updates.length > 100 then
    (.error (.validation "Cannot update more than 100 items at once"), s)
  else if updates.any (fun u => u.id.truthy) then
    (.error (.typeError "Cannot read properties of undefined (reading 'byId')"), s)
  else
    (.ok ([], updates.map (fun _ => Err.validation "Missing required field: id")), s)

/-- The membership test `["active", "archived", "deleted"].includes(v)`
performed by `ItemsService.update` on a present `status` value. -/
def validStatusVal (v : JsVal) : Bool :=
  match v with
  | .str st => st == "active" || st == "archived" || st == "deleted"
  | _ => false

/-- The `data` object of one entry of `ItemsService.batchOperations`. -/
structure BatchData where
  id : JsVal
  name : JsVal
  status : JsVal
deriving DecidableEq, Repr

/-- One entry of `ItemsService.batchOperations`: an operation `type` and
its `data` object (`none` models a falsy `data`). -/
structure BatchOp where
  type : String
  data : Option BatchData
deriving DecidableEq, Repr

/-- One iteration of the `batchOperations` loop: dispatch on the `type`
tag, performing a create (with an optional follow-up status update), an
update, or a delete. -/
def batchStep (now : String) (s : ItemsState) (op : BatchOp) :
    Except Err ItemsState :=
  match op.type, op.data with
  | "create", someData =>
      match someData with
      | none => .error (.validation "Create operation requires 'name' in data")
      | some d =>
          if !d.name.truthy then .error (.validation "Create operation requires 'name' in data")
          else
            match s.create now d.name with
            | (.error e, _) => .error e
            | (.ok created, s') =>
                if d.status.truthy then
                  match s'.update now (.num (.fin (created.id : ℚ)))
                      { id := .undef, name := .undef, status := d.status } with
                  | (.ok _, s'') => .ok s''
                  | (.error e, _) => .error e
                else .ok s'
  | "update", someData =>
      match someData with
      | none => .error (.validation "Update operation requires 'id' in data")
      | some d =>
          if !d.id.truthy then .error (.validation "Update operation requires 'id' in data")
          else
            match s.update now d.id { id := d.id, name := d.name, status := d.status } with
            | (.ok _, s') => .ok s'
            | (.error e, _) => .error e
  | "delete", someData =>
      match someData with
      | none => .error (.validation "Delete operation requires 'id' in data")
      | some d =>
          if !d.id.truthy then .error (.validation "Delete operation requires 'id' in data")
          else
            match s.delete d.id with
            | (.ok _, s') => .ok s'
            | (.error e, _) => .error e
  | t, _ => .error (.validation ("Unknown operation type: " ++ t))

/-- The `batchOperations` loop: run entries in sequence, aborting at the
first failure. -/
def batchLoop (now : String) : ItemsState → List BatchOp → Except Err ItemsState
  | s, [] => .ok s
  | s, op :: rest =>
      match batchStep now s op with
      | .ok s' => batchLoop now s' rest
      | .error e => .error e

/-- `ItemsService.batchOperations`: bounds-check the array, then run the
entries in sequence; on any failure the snapshot of `items` and `nextId`
is restored and the subsequent `this._rebuildIndexes()` call throws an
untyped `TypeError` (the method does not exist), leaving the pre-call
state in place. -/
def ItemsState.batchOperations (s : ItemsState) (now : String) (ops : List BatchOp) :
    Except Err ItemsState × ItemsState :=
  if ops.length = 0 then (.error (.validation "Operations must be a non-empty array"), s)
  else if ops.length > 100 then
    (.error (.validation "Cannot process more than 100 operations at once"), s)
  else
    match batchLoop now s ops with
    | .ok sf => (.ok sf, sf)
    | .error _ => (.error (.typeError "this._rebuildIndexes is not a function"), s)

/-- A mutating operation of `ItemsService`; the read-only operations
(getAll, getById, getStats, search, getPaginated, getByIds, the date-range
queries) do not change the state. -/
inductive Op where
  | create (now : String) (name : JsVal)
  | update (now : String) (id : JsVal) (u : ItemUpdates)
  | delete (id : JsVal)
  | bulkCreate (now : String) (names : List JsVal)
  | bulkUpdate (now : String) (updates : List ItemUpdates)
  | bulkDelete (ids : List JsVal)
  | bulkCreateTransactional (now : String) (names : List JsVal) (rollback : Bool)
  | bulkUpdateWithValidation (updates : List ItemUpdates)
  | batchOperations (now : String) (ops : List BatchOp)
deriving DecidableEq, Repr

/-- The state reached after one service operation. -/
def ItemsState.step (s : ItemsState) : Op → ItemsState
  | .create now name => (s.create now name).2
  | .update now id u => (s.update now id u).2
  | .delete id => (s.delete id).2
  | .bulkCreate now names => (s.bulkCreate now names).2
  | .bulkUpdate now updates => (s.bulkUpdate now updates).2
  | .bulkDelete ids => (s.bulkDelete ids).2
  | .bulkCreateTransactional now names rollback => (s.bulkCreateTransactional now names rollback).2
  | .bulkUpdateWithValidation updates => (s.bulkUpdateWithValidation updates).2
  | .batchOperations now ops => (s.batchOperations now ops).2

/-- The state reached after a sequence of service operations. -/
def ItemsState.run (s : ItemsState) : List Op → ItemsState
  | [] => s
  | op :: rest => (s.step op).run rest

/-- `ProductsService.validatePrice` (src/productsService.js): coerce with
`Number`, reject NaN and negative values with a `ValidationError`, and
return `Math.round(priceNum * 100) / 100`. -/
def ProductsService.validatePrice (price : JsVal) : Except Err JSNum :=
  let priceNum := price.toNumber
  if priceNum.isNaN || priceNum.ltZero then
    .error (.validation "Price must be a positive number")
  else .ok (jsDiv (jsRound (jsMul priceNum (.fin 100))) (.fin 100))

/-! ### Store invariants and their preservation -/

/-- The ids currently present in the store. -/
def idsOf (s : ItemsState) : List ℕ := s.items.map Item.id

/-- The id discipline of the store: every stored id is below the counter
and ids are pairwise distinct. -/
def Inv (s : ItemsState) : Prop :=
  (∀ it ∈ s.items, it.id < s.nextId) ∧ (s.items.map Item.id).Nodup

instance (s : ItemsState) : Decidable (Inv s) := by unfold Inv; infer_instance

/-- Membership in the items entity's fixed valid status set. -/
def statusValid (st : String) : Prop := st = "active" ∨ st = "archived" ∨ st = "deleted"

instance (st : String) : Decidable (statusValid st) := by unfold statusValid; infer_instance

/-- Every stored record carries a status from the valid set. -/
def StatusInv (s : ItemsState) : Prop := ∀ it ∈ s.items, statusValid it.status

instance (s : ItemsState) : Decidable (StatusInv s) := by unfold StatusInv; infer_instance

/-- What one service operation can do to the store: the counter never
decreases, every record afterwards either reuses an id that was already
stored or gets an id at or above the old counter, and both store
invariants are preserved. -/
def Preserves (s s' : ItemsState) : Prop :=
  s.nextId ≤ s'.nextId ∧
  (∀ it ∈ s'.items, it.id ∈ idsOf s ∨ s.nextId ≤ it.id) ∧
  (Inv s → Inv s') ∧
  (StatusInv s → StatusInv s')

lemma preserves_refl (s : ItemsState) : Preserves s s := by
  refine ⟨le_rfl, fun it hit => Or.inl ?_, id, id⟩
  exact List.mem_map_of_mem Item.id hit

lemma preserves_trans {s₁ s₂ s₃ : ItemsState} (h₁ : Preserves s₁ s₂) (h₂ : Preserves s₂ s₃) :
    Preserves s₁ s₃ := by
  obtain ⟨hn₁, hm₁, hi₁, hs₁⟩ := h₁
  obtain ⟨hn₂, hm₂, hi₂, hs₂⟩ := h₂
  refine ⟨hn₁.trans hn₂, ?_, fun h => hi₂ (hi₁ h), fun h => hs₂ (hs₁ h)⟩
  intro it hit
  rcases hm₂ it hit with hmem | hge
  · rcases List.mem_map.mp hmem with ⟨it', hit', hid⟩
    rcases hm₁ it' hit' with h' | h'
    · exact Or.inl (hid ▸ h')
    · exact Or.inr (hid ▸ h')
  · exact Or.inr (hn₁.trans hge)

lemma setFirstById_mem {items : List Item} {target : ℕ} {f : Item → Item} {it : Item}
    (h : it ∈ setFirstById items target f) : it ∈ items ∨ ∃ it₀ ∈ items, it = f it₀ := by
  induction items with
  | nil => simp [setFirstById] at h
  | cons a rest ih =>
      unfold setFirstById at h
      split at h
      · rcases List.mem_cons.mp h with h | h
        · exact Or.inr ⟨a, List.mem_cons_self a rest, h⟩
        · exact Or.inl (List.mem_cons_of_mem a h)
      · rcases List.mem_cons.mp h with h | h
        · exact Or.inl (h ▸ List.mem_cons_self a rest)
        · rcases ih h with h | ⟨it₀, hit₀, heq⟩
          · exact Or.inl (List.mem_cons_of_mem a h)
          · exact Or.inr ⟨it₀, List.mem_cons_of_mem a hit₀, heq⟩

lemma setFirstById_map_eq {items : List Item} {target : ℕ} {f : Item → Item}
    {g : Item → α} (hg : ∀ it, g (f it) = g it) :
    (setFirstById items target f).map g = items.map g := by
  induction items with
  | nil => rfl
  | cons a rest ih =>
      unfold setFirstById
      split
      · simp [hg]
      · simp [ih]

lemma removeFirstMatching_sublist (items : List Item) (n : JSNum) :
    (removeFirstMatching items n).Sublist items := by
  induction items with
  | nil => simp [removeFirstMatching]
  | cons a rest ih =>
      unfold removeFirstMatching
      split
      · exact List.sublist_cons_self a rest
      · exact ih.cons₂ a

lemma create_preserves (s : ItemsState) (now : String) (name : JsVal) :
    Preserves s (s.create now name).2 := by
  unfold ItemsState.create
  split
  · exact preserves_refl s
  · split
    · exact preserves_refl s
    · refine ⟨Nat.le_succ _, ?_, ?_, ?_⟩
      · intro it hit
        rcases List.mem_append.mp hit with h | h
        · exact Or.inl (List.mem_map_of_mem Item.id h)
        · simp at h
          subst h
          exact Or.inr le_rfl
      · rintro ⟨hbound, hnodup⟩
        constructor
        · intro it hit
          rcases List.mem_append.mp hit with h | h
          · exact (hbound it h).trans (Nat.lt_succ_self _)
          · simp at h
            subst h
            exact Nat.lt_succ_self _
        · rw [List.map_append]
          refine List.Nodup.append hnodup (List.nodup_singleton _) ?_
          intro x hx hx'
          simp at hx'
          rcases List.mem_map.mp hx with ⟨it, hit, hid⟩
          subst hx'
          exact absurd (hid ▸ hbound it hit) (lt_irrefl _)
      · intro hst it hit
        rcases List.mem_append.mp hit with h | h
        · exact hst it h
        · simp at h
          subst h
          exact Or.inl rfl

lemma update_shape (s : ItemsState) (now : String) (id : JsVal) (u : ItemUpdates) :
    (s.update now id u).2.nextId = s.nextId ∧
    (s.update now id u).2.items.map Item.id = s.items.map Item.id ∧
    (∀ it ∈ (s.update now id u).2.items,
      it ∈ s.items ∨ ∃ it₀ ∈ s.items, it.id = it₀.id ∧ it.createdAt = it₀.createdAt ∧
        (it.status = it₀.status ∨ statusValid it.status)) := by
  have hbase : ∀ l : List Item, ∀ it ∈ l, it ∈ l ∨ ∃ it₀ ∈ l, it.id = it₀.id ∧
      it.createdAt = it₀.createdAt ∧ (it.status = it₀.status ∨ statusValid it.status) :=
    fun l it hit => Or.inl hit
  unfold ItemsState.update
  split
  · exact ⟨rfl, rfl, hbase s.items⟩
  · dsimp only
    split
    · exact ⟨rfl, rfl, hbase s.items⟩
    next item1 items1 heq =>
      have hitems1 : items1.map Item.id = s.items.map Item.id ∧
          ∀ it ∈ items1, it ∈ s.items ∨ ∃ it₀ ∈ s.items, it.id = it₀.id ∧
            it.createdAt = it₀.createdAt ∧ (it.status = it₀.status ∨ statusValid it.status) := by
        split at heq
        · simp only [Except.ok.injEq, Prod.mk.injEq] at heq
          obtain ⟨h1, h2⟩ := heq
          subst h2
          exact ⟨rfl, hbase s.items⟩
        · split at heq
          · exact absurd heq (by simp)
          · split at heq
            · exact absurd heq (by simp)
            · simp only [Except.ok.injEq, Prod.mk.injEq] at heq
              obtain ⟨h1, h2⟩ := heq
              subst h2
              refine ⟨setFirstById_map_eq (fun it => rfl), ?_⟩
              intro it hit
              rcases setFirstById_mem hit with h | ⟨it₀, hit₀, h⟩
              · exact Or.inl h
              · exact Or.inr ⟨it₀, hit₀, by simp [h], by simp [h], Or.inl (by simp [h])⟩
      split
      · exact ⟨rfl, hitems1.1, fun it hit => hitems1.2 it hit⟩
      next item2 items2 heq2 =>
        have hitems2 : items2.map Item.id = s.items.map Item.id ∧
            ∀ it ∈ items2, it ∈ s.items ∨ ∃ it₀ ∈ s.items, it.id = it₀.id ∧
              it.createdAt = it₀.createdAt ∧ (it.status = it₀.status ∨ statusValid it.status) := by
          split at heq2
          · simp only [Except.ok.injEq, Prod.mk.injEq] at heq2
            obtain ⟨h1, h2⟩ := heq2
            subst h2
            exact hitems1
          · split at heq2
            · split at heq2
              · rename_i st heqv hcond
                simp only [Except.ok.injEq, Prod.mk.injEq] at heq2
                obtain ⟨h1, h2⟩ := heq2
                subst h2
                constructor
                · exact (setFirstById_map_eq (g := Item.id)
                    (f := fun it => { it with status := st }) (fun it => rfl)).trans hitems1.1
                · intro it hit
                  rcases setFirstById_mem hit with h | ⟨it₁, hit₁, h⟩
                  · exact hitems1.2 it h
                  · rcases hitems1.2 it₁ hit₁ with h' | ⟨it₀, hit₀, hid, hca, _⟩
                    · refine Or.inr ⟨it₁, h', by simp [h], by simp [h], Or.inr ?_⟩
                      subst h
                      simpa [statusValid] using hcond
                    · refine Or.inr ⟨it₀, hit₀, by simp [h, hid], by simp [h, hca], Or.inr ?_⟩
                      subst h
                      simpa [statusValid] using hcond
              · exact absurd heq2 (by simp)
            · exact absurd heq2 (by simp)
        refine ⟨rfl, ?_, ?_⟩
        · exact (setFirstById_map_eq (g := Item.id)
            (f := fun it => { it with updatedAt := now }) (fun it => rfl)).trans hitems2.1
        · intro it hit
          rcases setFirstById_mem hit with h | ⟨it₂, hit₂, h⟩
          · exact hitems2.2 it h
          · rcases hitems2.2 it₂ hit₂ with h' | ⟨it₀, hit₀, hid, hca, hst⟩
            · exact Or.inr ⟨it₂, h', by simp [h], by simp [h], Or.inl (by simp [h])⟩
            · exact Or.inr ⟨it₀, hit₀, by simp [h, hid], by simp [h, hca], by simp [h]; exact hst⟩

lemma update_preserves (s : ItemsState) (now : String) (id : JsVal) (u : ItemUpdates) :
    Preserves s (s.update now id u).2 := by
  obtain ⟨hnext, hids, hmem⟩ := update_shape s now id u
  refine ⟨hnext.ge, ?_, ?_, ?_⟩
  · intro it hit
    have h := List.mem_map_of_mem Item.id hit
    rw [hids] at h
    exact Or.inl h
  · rintro ⟨hbound, hnodup⟩
    refine ⟨?_, by rw [hids]; exact hnodup⟩
    intro it hit
    have : it.id ∈ s.items.map Item.id := hids ▸ List.mem_map_of_mem Item.id hit
    rcases List.mem_map.mp this with ⟨it₀, hit₀, hid⟩
    rw [hnext, ← hid]
    exact hbound it₀ hit₀
  · intro hst it hit
    rcases hmem it hit with h | ⟨it₀, hit₀, _, _, h⟩
    · exact hst it h
    · rcases h with h | h
      · exact h ▸ hst it₀ hit₀
      · exact h

lemma delete_preserves (s : ItemsState) (id : JsVal) : Preserves s (s.delete id).2 := by
  unfold ItemsState.delete
  dsimp only
  split
  · exact preserves_refl s
  · split
    · have hsub := removeFirstMatching_sublist s.items id.toNumber
      refine ⟨le_rfl, ?_, ?_, ?_⟩
      · intro it hit
        exact Or.inl (List.mem_map_of_mem Item.id (hsub.mem hit))
      · rintro ⟨hbound, hnodup⟩
        exact ⟨fun it hit => hbound it (hsub.mem hit), hnodup.sublist (hsub.map Item.id)⟩
      · intro hst it hit
        exact hst it (hsub.mem hit)
    · exact preserves_refl s

lemma bulkCreateLoop_preserves (now : String) (s : ItemsState) (names : List JsVal) :
    Preserves s (bulkCreateLoop now s names).2.2 := by
  induction names generalizing s with
  | nil => exact preserves_refl s
  | cons n rest ih =>
      have hc := create_preserves s now n
      unfold bulkCreateLoop
      split
      next item s' heq =>
        rw [heq] at hc
        cases hrec : bulkCreateLoop now s' rest with
        | mk cs tl =>
            have := ih s'
            rw [hrec] at this
            exact preserves_trans hc this
      next e s' heq =>
        rw [heq] at hc
        cases hrec : bulkCreateLoop now s' rest with
        | mk cs tl =>
            have := ih s'
            rw [hrec] at this
            exact preserves_trans hc this

lemma bulkUpdateLoop_preserves (now : String) (s : ItemsState) (updates : List ItemUpdates) :
    Preserves s (bulkUpdateLoop now s updates).2.2 := by
  induction updates generalizing s with
  | nil => exact preserves_refl s
  | cons u rest ih =>
      unfold bulkUpdateLoop
      split
      · have hc := update_preserves s now u.id u
        split
        next item s' heq =>
          rw [heq] at hc
          cases hrec : bulkUpdateLoop now s' rest with
          | mk us tl =>
              have := ih s'
              rw [hrec] at this
              exact preserves_trans hc this
        next e s' heq =>
          rw [heq] at hc
          cases hrec : bulkUpdateLoop now s' rest with
          | mk us tl =>
              have := ih s'
              rw [hrec] at this
              exact preserves_trans hc this
      · cases hrec : bulkUpdateLoop now s rest with
        | mk us tl =>
            have := ih s
            rw [hrec] at this
            exact this

lemma bulkDeleteLoop_preserves (s : ItemsState) (ids : List JsVal) :
    Preserves s (bulkDeleteLoop s ids).2.2 := by
  induction ids generalizing s with
  | nil => exact preserves_refl s
  | cons id rest ih =>
      have hc := delete_preserves s id
      unfold bulkDeleteLoop
      split
      next d s' heq =>
        rw [heq] at hc
        cases hrec : bulkDeleteLoop s' rest with
        | mk ds tl =>
            have := ih s'
            rw [hrec] at this
            exact preserves_trans hc this
      next e s' heq =>
        rw [heq] at hc
        cases hrec : bulkDeleteLoop s' rest with
        | mk ds tl =>
            have := ih s'
            rw [hrec] at this
            exact preserves_trans hc this

lemma txCreateLoop_preserves (now : String) (s : ItemsState) (names : List JsVal)
    {cs : List Item} {sf : ItemsState} (h : txCreateLoop now s names = .ok (cs, sf)) :
    Preserves s sf := by
  induction names generalizing s cs sf with
  | nil =>
      unfold txCreateLoop at h
      simp only [Except.ok.injEq, Prod.mk.injEq] at h
      exact h.2 ▸ preserves_refl s
  | cons n rest ih =>
      unfold txCreateLoop at h
      split at h
      next item s' heq =>
        split at h
        next cs' sf' hrec =>
          simp only [Except.ok.injEq, Prod.mk.injEq] at h
          have hc := create_preserves s now n
          rw [heq] at hc
          exact preserves_trans hc (h.2 ▸ ih s' hrec)
        next e hrec => exact absurd h (by simp)
      next e s' heq => exact absurd h (by simp)

lemma batchStep_preserves (now : String) (s : ItemsState) (op : BatchOp)
    {s' : ItemsState} (h : batchStep now s op = .ok s') : Preserves s s' := by
  unfold batchStep at h
  split at h
  · split at h
    · exact absurd h (by simp)
    next d hd =>
      split at h
      · exact absurd h (by simp)
      · split at h
        next e s₁ heq =>
          exact absurd h (by simp)
        next created s₁ heq =>
          have hc := create_preserves s now d.name
          rw [heq] at hc
          split at h
          · split at h
            next item s₂ heq₂ =>
              have hu := update_preserves s₁ now (.num (.fin (created.id : ℚ)))
                { id := .undef, name := .undef, status := d.status }
              rw [heq₂] at hu
              simp only [Except.ok.injEq] at h
              exact h ▸ preserves_trans hc hu
            next e heq₂ => exact absurd h (by simp)
          · simp only [Except.ok.injEq] at h
            exact h ▸ hc
  · split at h
    · exact absurd h (by simp)
    next d hd =>
      split at h
      · exact absurd h (by simp)
      · split at h
        next item s₁ heq =>
          have hu := update_preserves s now d.id { id := d.id, name := d.name, status := d.status }
          rw [heq] at hu
          simp only [Except.ok.injEq] at h
          exact h ▸ hu
        next e heq => exact absurd h (by simp)
  · split at h
    · exact absurd h (by simp)
    next d hd =>
      split at h
      · exact absurd h (by simp)
      · split at h
        next del s₁ heq =>
          have hdel := delete_preserves s d.id
          rw [heq] at hdel
          simp only [Except.ok.injEq] at h
          exact h ▸ hdel
        next e heq => exact absurd h (by simp)
  · exact absurd h (by simp)

lemma batchLoop_preserves (now : String) (s : ItemsState) (ops : List BatchOp)
    {sf : ItemsState} (h : batchLoop now s ops = .ok sf) : Preserves s sf := by
  induction ops generalizing s with
  | nil =>
      unfold batchLoop at h
      simp only [Except.ok.injEq] at h
      exact h ▸ preserves_refl s
  | cons op rest ih =>
      unfold batchLoop at h
      split at h
      next s₁ heq => exact preserves_trans (batchStep_preserves now s op heq) (ih s₁ h)
      next e heq => exact absurd h (by simp)

lemma step_preserves (s : ItemsState) (op : Op) : Preserves s (s.step op) := by
  cases op with
  | create now name => exact create_preserves s now name
  | update now id u => exact update_preserves s now id u
  | delete id => exact delete_preserves s id
  | bulkCreate now names =>
      show Preserves s (s.bulkCreate now names).2
      unfold ItemsState.bulkCreate
      split
      · exact preserves_refl s
      · split
        · exact preserves_refl s
        · cases hrec : bulkCreateLoop now s names with
          | mk cs tl =>
              have := bulkCreateLoop_preserves now s names
              rw [hrec] at this
              exact this
  | bulkUpdate now updates =>
      show Preserves s (s.bulkUpdate now updates).2
      unfold ItemsState.bulkUpdate
      split
      · exact preserves_refl s
      · split
        · exact preserves_refl s
        · cases hrec : bulkUpdateLoop now s updates with
          | mk us tl =>
              have := bulkUpdateLoop_preserves now s updates
              rw [hrec] at this
              exact this
  | bulkDelete ids =>
      show Preserves s (s.bulkDelete ids).2
      unfold ItemsState.bulkDelete
      split
      · exact preserves_refl s
      · split
        · exact preserves_refl s
        · cases hrec : bulkDeleteLoop s ids with
          | mk ds tl =>
              have := bulkDeleteLoop_preserves s ids
              rw [hrec] at this
              exact this
  | bulkCreateTransactional now names rollback =>
      show Preserves s (s.bulkCreateTransactional now names rollback).2
      unfold ItemsState.bulkCreateTransactional
      split
      · exact preserves_refl s
      · split
        · exact preserves_refl s
        · split
          · split
            next cs sf heq => exact txCreateLoop_preserves now s names heq
            next e heq => exact preserves_refl s
          · cases hrec : bulkCreateLoop now s names with
            | mk cs tl =>
                have := bulkCreateLoop_preserves now s names
                rw [hrec] at this
                exact this
  | bulkUpdateWithValidation updates =>
      show Preserves s (s.bulkUpdateWithValidation updates).2
      unfold ItemsState.bulkUpdateWithValidation
      split
      · exact preserves_refl s
      · split
        · exact preserves_refl s
        · split
          · exact preserves_refl s
          · exact preserves_refl s
  | batchOperations now ops =>
      show Preserves s (s.batchOperations now ops).2
      unfold ItemsState.batchOperations
      split
      · exact preserves_refl s
      · split
        · exact preserves_refl s
        · split
          next sf heq => exact batchLoop_preserves now s ops heq
          next e heq => exact preserves_refl s

lemma run_preserves (s : ItemsState) (ops : List Op) : Preserves s (s.run ops) := by
  induction ops generalizing s with
  | nil => exact preserves_refl s
  | cons op rest ih =>
      exact preserves_trans (step_preserves s op) (ih (s.step op))

lemma create_ok_shape (s : ItemsState) (now : String) (name : JsVal) {it : Item}
    (h : (s.create now name).1 = .ok it) :
    it.id = s.nextId ∧ it.status = "active" ∧ it.createdAt = now ∧ it.updatedAt = now ∧
    (s.create now name).2 = { items := s.items ++ [it], nextId := s.nextId + 1 } := by
  unfold ItemsState.create at h ⊢
  split at h
  · exact absurd h (by simp)
  · split at h
    · exact absurd h (by simp)
    · simp only [Except.ok.injEq] at h
      subst h
      exact ⟨rfl, rfl, rfl, rfl, rfl⟩

lemma round2_abs_le (q : ℚ) : |((⌊q * 100 + 1/2⌋ : ℤ) : ℚ) / 100 - q| ≤ 1 / 200 := by
  have h1 : ((⌊q * 100 + 1/2⌋ : ℤ) : ℚ) ≤ q * 100 + 1/2 := Int.floor_le _
  have h2 : q * 100 + 1/2 - 1 < ((⌊q * 100 + 1/2⌋ : ℤ) : ℚ) := Int.sub_one_lt_floor _
  have key : |((⌊q * 100 + 1/2⌋ : ℤ) : ℚ) - q * 100| ≤ 1/2 := by
    rw [abs_le]
    constructor <;> linarith
  have heq : ((⌊q * 100 + 1/2⌋ : ℤ) : ℚ) / 100 - q = (((⌊q * 100 + 1/2⌋ : ℤ) : ℚ) - q * 100) / 100 := by
    ring
  rw [heq, abs_div, abs_of_pos (show (0:ℚ) < 100 by norm_num)]
  rw [div_le_iff₀ (show (0:ℚ) < 100 by norm_num)]
  calc |((⌊q * 100 + 1/2⌋ : ℤ) : ℚ) - q * 100| ≤ 1/2 := key
    _ = 1 / 200 * 100 := by norm_num

/-! ### Claim theorems -/

/-- C1: the claim states that `update(id, partial)` excludes the record
being updated from the case-insensitive duplicate check for every form of
id accepted by `update`, including the string form passed by the
controller from the URL path.  The source compares `i.id !== id` with the
raw argument, and a string id is never strictly equal to the numeric
stored id, so with the controller's string id the record does not exclude
itself: updating record 1 to its own current name fails with "already
exists" (and leaves the store unchanged), while the same update with the
numeric id 1 succeeds. -/
theorem C1_string_id_self_exclusion_fails :
    ((ItemsService.init "t0").update "t1" (JsVal.str "1")
        { id := JsVal.str "1", name := JsVal.str "First item", status := JsVal.undef }).1 =
      .error (.validation "Item with name \"First item\" already exists") ∧
    ((ItemsService.init "t0").update "t1" (JsVal.str "1")
        { id := JsVal.str "1", name := JsVal.str "First item", status := JsVal.undef }).2 =
      ItemsService.init "t0" ∧
    ((ItemsService.init "t0").update "t1" (JsVal.num (JSNum.fin 1))
        { id := JsVal.num (JSNum.fin 1), name := JsVal.str "First item", status := JsVal.undef }).1 =
      .ok { id := 1, name := "First item", createdAt := "t0", updatedAt := "t1",
            status := "active" } := by
  refine ⟨by decide, by decide, by decide⟩

/-- C2: the claim states that every error raised by a service operation is
typed and carries a `statusCode`.  `bulkUpdateWithValidation` reads
`this.indexes.byId` for any entry with a truthy id, and `this.indexes` is
never initialized, so the operation raises a bare `TypeError` carrying no
`statusCode` classification. -/
theorem C2_bulk_update_with_validation_type_error :
    ((ItemsService.init "t0").bulkUpdateWithValidation
        [{ id := JsVal.num (JSNum.fin 1), name := JsVal.str "Renamed", status := JsVal.undef }]).1 =
      .error (.typeError "Cannot read properties of undefined (reading 'byId')") ∧
    Err.statusCode (.typeError "Cannot read properties of undefined (reading 'byId')") = none := by
  refine ⟨by decide, rfl⟩

/-- C4 counterexample: the claim states `getById` fails with a
`ValidationError` whenever the input is not numeric, giving null, a
boolean and the empty string as examples.  In the source `Number(true)` is
1, so `getById(true)` returns record 1, and `Number(null)` and
`Number("")` are 0, so those inputs fail with `ItemNotFoundError`
(404), not `ValidationError` (400). -/
theorem C4_counterexample :
    (ItemsService.init "t0").getById (JsVal.bool true) =
      .ok { id := 1, name := "First item", createdAt := "t0", updatedAt := "t0",
            status := "active" } ∧
    (ItemsService.init "t0").getById JsVal.null = .error (.notFound "Item" (.fin 0)) ∧
    (ItemsService.init "t0").getById (JsVal.str "") = .error (.notFound "Item" (.fin 0)) := by
  refine ⟨by decide, by decide, by decide⟩

/-- C5 counterexample: the claim states the price validator fails with a
`ValidationError` unless the input parses to a finite number.  `Infinity`
is not finite, yet it passes the NaN/negative check and the validator
succeeds, returning `Infinity`. -/
theorem C5_counterexample :
    ProductsService.validatePrice (JsVal.num JSNum.inf) = .ok JSNum.inf := by decide

/-- C6 counterexample: the claim expects the first create on a newly
constructed items service to return id 1, but the constructor seeds the
store with two records and `nextId = 3`, so `create("Widget")` returns a
record with id 3. -/
theorem C6_counterexample :
    ((ItemsService.init "t0").create "t1" (JsVal.str "Widget")).1 =
      .ok { id := 3, name := "Widget", createdAt := "t1", updatedAt := "t1",
            status := "active" } ∧
    (3 : ℕ) ≠ 1 := by
  refine ⟨by decide, by decide⟩

/-- C6 (amended): on a newly constructed items service (which already
holds the two seed records and has `nextId = 3`), `create("Widget")`
returns `{id: 3, name: "Widget", status: "active"}` with both timestamps
stamped to the creation instant, and a second `create("Widget")` on the
resulting state fails with a `ValidationError` saying the item already
exists. -/
theorem C6_create_widget_then_duplicate (t0 t1 t2 : String) :
    ((ItemsService.init t0).create t1 (JsVal.str "Widget")).1 =
      .ok { id := 3, name := "Widget", createdAt := t1, updatedAt := t1, status := "active" } ∧
    (((ItemsService.init t0).create t1 (JsVal.str "Widget")).2.create t2 (JsVal.str "Widget")).1 =
      .error (.validation "Item with name \"Widget\" already exists") := by
  exact ⟨rfl, rfl⟩

/-- C4 (amended): `getById` fails with a `ValidationError` exactly when
`Number(id)` is NaN (for example for `undefined` or a non-numeric string).
When the coercion yields a number, it returns the first stored record
strictly equal to that number, or fails with `ItemNotFoundError` exactly
when no record matches.  Inputs such as `null`, booleans, and the empty
string coerce to the numbers 0 and 1 and therefore fall into the numeric
cases, not the `ValidationError` case stated by the claim. -/
theorem C4_getById_classification (s : ItemsState) (id : JsVal) :
    ((∃ m, s.getById id = .error (.validation m)) ↔ id.toNumber.isNaN = true) ∧
    (∀ it, s.getById id = .ok it → it ∈ s.items ∧ id.toNumber.eqNat it.id = true) ∧
    ((∃ n, s.getById id = .error (.notFound "Item" n)) ↔
      (id.toNumber.isNaN = false ∧ ∀ it ∈ s.items, id.toNumber.eqNat it.id = false)) := by
  unfold ItemsState.getById
  by_cases hn : id.toNumber.isNaN
  · simp [hn]
  · rw [Bool.not_eq_true] at hn
    simp only [hn, Bool.false_eq_true, if_false]
    cases hf : s.items.find? (fun it => id.toNumber.eqNat it.id) with
    | some it₀ =>
        refine ⟨?_, ?_, ?_⟩
        · simp [hn]
        · intro it h
          simp only [Except.ok.injEq] at h
          subst h
          exact ⟨List.mem_of_find?_eq_some hf, by simpa using List.find?_some hf⟩
        · simp only [hn, true_and]
          constructor
          · rintro ⟨n, h⟩
            simp at h
          · intro hall
            have h := List.find?_some hf
            simp only [hall it₀ (List.mem_of_find?_eq_some hf)] at h
            simp at h
    | none =>
        refine ⟨?_, ?_, ?_⟩
        · simp
        · intro it h
          simp at h
        · simp only [hn, true_and, Except.error.injEq, Err.notFound.injEq]
          constructor
          · intro _
            exact fun it hit => by simpa using List.find?_eq_none.mp hf it hit
          · intro _
            exact ⟨id.toNumber, rfl⟩

/-- C4 witness: instantiation of the classification at the seeded store
with the string id "2" and with the non-numeric id `undefined`. -/
theorem C4_witness :
    (ItemsService.init "t0").getById (JsVal.str "2") =
      .ok { id := 2, name := "Another item", createdAt := "t0", updatedAt := "t0",
            status := "active" } →
      ({ id := 2, name := "Another item", createdAt := "t0", updatedAt := "t0",
          status := "active" } : Item) ∈ (ItemsService.init "t0").items ∧
      (JsVal.str "2").toNumber.eqNat 2 = true := by
  intro h
  exact (C4_getById_classification (ItemsService.init "t0") (JsVal.str "2")).2.1 _ h

/-- C5 (amended): the price validator fails with a `ValidationError`
exactly when `Number(price)` is NaN, -Infinity, or a negative finite
value.  On a non-negative finite value `q` it succeeds and returns
`Math.round(q * 100) / 100`, which is `q` rounded to 2 decimal places
(within 1/200 of `q`).  On +Infinity — which does not parse to a finite
number — it nevertheless succeeds and returns Infinity, contradicting the
claim's finiteness requirement. -/
theorem C5_validate_price_classification (v : JsVal) :
    (ProductsService.validatePrice v = .error (.validation "Price must be a positive number") ↔
      (v.toNumber = .nan ∨ v.toNumber = .ninf ∨ ∃ q : ℚ, v.toNumber = .fin q ∧ q < 0)) ∧
    (∀ q : ℚ, v.toNumber = .fin q → 0 ≤ q →
      ProductsService.validatePrice v = .ok (.fin (((⌊q * 100 + 1/2⌋ : ℤ) : ℚ) / 100)) ∧
      |(((⌊q * 100 + 1/2⌋ : ℤ) : ℚ) / 100) - q| ≤ 1 / 200) ∧
    (v.toNumber = .inf → ProductsService.validatePrice v = .ok .inf) := by
  cases hv : v.toNumber with
  | nan =>
      have hred : ProductsService.validatePrice v =
          .error (.validation "Price must be a positive number") := by
        unfold ProductsService.validatePrice
        rw [hv]
        rfl
      refine ⟨by simp [hred], ?_, by simp⟩
      intro q h
      simp at h
  | inf =>
      have hred : ProductsService.validatePrice v = .ok .inf := by
        unfold ProductsService.validatePrice
        rw [hv]
        rfl
      refine ⟨?_, ?_, fun _ => hred⟩
      · rw [hred]
        constructor
        · intro h
          simp at h
        · rintro (h | h | ⟨q, h, _⟩) <;> simp at h
      · intro q h
        simp at h
  | ninf =>
      have hred : ProductsService.validatePrice v =
          .error (.validation "Price must be a positive number") := by
        unfold ProductsService.validatePrice
        rw [hv]
        rfl
      refine ⟨?_, ?_, by simp⟩
      · exact ⟨fun _ => Or.inr (Or.inl rfl), fun _ => hred⟩
      · intro q h
        simp at h
  | fin q =>
      by_cases hq : q < 0
      · have hred : ProductsService.validatePrice v =
            .error (.validation "Price must be a positive number") := by
          unfold ProductsService.validatePrice
          rw [hv]
          simp [JSNum.isNaN, JSNum.ltZero, jsLtB, hq]
        refine ⟨?_, ?_, by simp⟩
        · exact ⟨fun _ => Or.inr (Or.inr ⟨q, rfl, hq⟩), fun _ => hred⟩
        · intro q' h hq'
          simp only [JSNum.fin.injEq] at h
          subst h
          exact absurd hq (not_lt.mpr hq')
      · have hred : ProductsService.validatePrice v =
            .ok (.fin (((⌊q * 100 + 1/2⌋ : ℤ) : ℚ) / 100)) := by
          unfold ProductsService.validatePrice
          rw [hv]
          simp [JSNum.isNaN, JSNum.ltZero, jsLtB, hq, jsMul, jsRound, jsDiv]
        refine ⟨?_, ?_, by simp⟩
        · rw [hred]
          constructor
          · intro h
            simp at h
          · rintro (h | h | ⟨q', h, hq'⟩)
            · simp at h
            · simp at h
            · simp only [JSNum.fin.injEq] at h
              subst h
              exact absurd hq' hq
        · intro q' h _
          simp only [JSNum.fin.injEq] at h
          subst h
          exact ⟨hred, round2_abs_le q⟩

/-- C5 witness: instantiation at the finite price 12.345, which rounds to
12.35, and check of the non-negativity hypothesis. -/
theorem C5_witness :
    (0 : ℚ) ≤ 2469/200 ∧
    ProductsService.validatePrice (JsVal.num (JSNum.fin (2469/200))) =
      .ok (.fin (((⌊(2469/200 : ℚ) * 100 + 1/2⌋ : ℤ) : ℚ) / 100)) := by
  refine ⟨by norm_num, ?_⟩
  exact ((C5_validate_price_classification (JsVal.num (JSNum.fin (2469/200)))).2.1
    (2469/200) rfl (by norm_num)).1

lemma txCreateLoop_error_iff (now : String) (s : ItemsState) (names : List JsVal) :
    (∃ e, txCreateLoop now s names = .error e) ↔ (bulkCreateLoop now s names).2.1 ≠ [] := by
  induction names generalizing s with
  | nil => simp [txCreateLoop, bulkCreateLoop]
  | cons n rest ih =>
      unfold txCreateLoop bulkCreateLoop
      cases hc : s.create now n with
      | mk r s' =>
          cases r with
          | ok item =>
              dsimp only
              cases hrec : bulkCreateLoop now s' rest with
              | mk cs tl =>
                  cases tl with
                  | mk es sf =>
                      have hih := ih s'
                      rw [hrec] at hih
                      dsimp only at hih ⊢
                      cases htx : txCreateLoop now s' rest with
                      | ok p =>
                          rw [htx] at hih
                          simp at hih
                          simp [hih]
                      | error e =>
                          rw [htx] at hih
                          exact hih
          | error e =>
              dsimp only
              cases hrec : bulkCreateLoop now s' rest with
              | mk cs tl =>
                  cases tl with
                  | mk es sf => simp

/-- C3: with rollback enabled (the default), when the names array has
between 1 and 100 entries and running the creates in sequence hits a
failure (expressed as: the independent per-element loop collects at least
one error), `bulkCreateTransactional` terminates with an error and the
store — both the `items` collection and the `nextId` counter — is exactly
its pre-call value.  (The error thrown is the untyped `TypeError` from the
missing `_rebuildIndexes` method, but it is thrown only after the snapshot
has been restored, so the all-or-nothing rollback holds.) -/
theorem C3_bulk_create_transactional_rollback (s : ItemsState) (now : String)
    (names : List JsVal) (h1 : 1 ≤ names.length) (h2 : names.length ≤ 100)
    (hfail : (bulkCreateLoop now s names).2.1 ≠ []) :
    (∃ e, (s.bulkCreateTransactional now names true).1 = .error e) ∧
    (s.bulkCreateTransactional now names true).2 = s := by
  obtain ⟨e, he⟩ := (txCreateLoop_error_iff now s names).mpr hfail
  unfold ItemsState.bulkCreateTransactional
  rw [if_neg (by omega), if_neg (by omega), if_pos rfl, he]
  exact ⟨⟨Err.typeError "this._rebuildIndexes is not a function", rfl⟩, rfl⟩

/-- C3 witness: a transactional bulk create whose single name collides
with the seeded record "First item". -/
theorem C3_witness :
    (∃ e, ((ItemsService.init "t0").bulkCreateTransactional "t1"
        [JsVal.str "First item"] true).1 = .error e) ∧
    ((ItemsService.init "t0").bulkCreateTransactional "t1"
        [JsVal.str "First item"] true).2 = ItemsService.init "t0" :=
  C3_bulk_create_transactional_rollback (ItemsService.init "t0") "t1"
    [JsVal.str "First item"] (by decide) (by decide) (by decide)

/-- C7: across every sequence of service operations, (a) a successful
create assigns `id = nextId` and bumps the counter, (b) the counter never
decreases across operations, (c) the id discipline — every stored id
below the counter, all ids distinct — is preserved, and (d) an id that is
below the counter and absent from the store (in particular, the id of any
deleted record) never reappears, so ids are never reused and successive
successful creates receive strictly increasing ids. -/
theorem C7_ids_increasing_unique_never_reused :
    (∀ (s : ItemsState) (now : String) (name : JsVal) (it : Item),
        (s.create now name).1 = .ok it →
        it.id = s.nextId ∧ (s.create now name).2.nextId = s.nextId + 1) ∧
    (∀ (s : ItemsState) (ops : List Op), s.nextId ≤ (s.run ops).nextId) ∧
    (∀ (s : ItemsState) (ops : List Op), Inv s → Inv (s.run ops)) ∧
    (∀ (s : ItemsState) (ops : List Op) (d : ℕ),
        d < s.nextId → d ∉ idsOf s → d ∉ idsOf (s.run ops)) := by
  refine ⟨?_, ?_, ?_, ?_⟩
  · intro s now name it h
    obtain ⟨hid, _, _, _, hs⟩ := create_ok_shape s now name h
    exact ⟨hid, by rw [hs]⟩
  · intro s ops
    exact (run_preserves s ops).1
  · intro s ops h
    exact (run_preserves s ops).2.2.1 h
  · intro s ops d hlt hnot hmem
    rcases List.mem_map.mp hmem with ⟨it, hit, hid⟩
    rcases (run_preserves s ops).2.1 it hit with h | h
    · exact hnot (hid ▸ h)
    · rw [hid] at h
      exact absurd hlt (not_lt.mpr h)

/-- C7 witness: after deleting record 1 from the seeded store, id 1 is
below the counter and absent, and it stays absent after a further create,
which instead receives the fresh id 3 = nextId. -/
theorem C7_witness :
    (((ItemsService.init "t0").create "t1" (JsVal.str "Widget")).1 =
        .ok { id := 3, name := "Widget", createdAt := "t1", updatedAt := "t1",
              status := "active" } →
      ({ id := 3, name := "Widget", createdAt := "t1", updatedAt := "t1",
          status := "active" } : Item).id = (ItemsService.init "t0").nextId) ∧
    Inv ((ItemsService.init "t0").run [Op.delete (JsVal.num (JSNum.fin 1))]) ∧
    1 ∉ idsOf (((ItemsService.init "t0").run [Op.delete (JsVal.num (JSNum.fin 1))]).run
        [Op.create "t1" (JsVal.str "Widget")]) := by
  refine ⟨?_, ?_, ?_⟩
  · intro h
    exact (C7_ids_increasing_unique_never_reused.1 (ItemsService.init "t0") "t1"
      (JsVal.str "Widget") _ h).1
  · exact C7_ids_increasing_unique_never_reused.2.2.1 (ItemsService.init "t0")
      [Op.delete (JsVal.num (JSNum.fin 1))] (by decide)
  · exact C7_ids_increasing_unique_never_reused.2.2.2
      ((ItemsService.init "t0").run [Op.delete (JsVal.num (JSNum.fin 1))])
      [Op.create "t1" (JsVal.str "Widget")] 1 (by decide) (by decide)

/-- C8: every state reachable from a state whose statuses are valid keeps
every record's status in the items entity's fixed set
active/archived/deleted, and an `update` whose payload carries only an
invalid `status` value fails with the `ValidationError` listing the valid
statuses and leaves the store completely unchanged, so the invalid value
is never stored. -/
theorem C8_status_always_valid :
    (∀ (s : ItemsState) (ops : List Op), StatusInv s → StatusInv (s.run ops)) ∧
    (∀ (s : ItemsState) (now : String) (id : JsVal) (u : ItemUpdates) (it : Item),
      s.getById id = .ok it → u.name = .undef → u.status ≠ .undef →
      validStatusVal u.status = false →
      (s.update now id u).1 =
        .error (.validation "Invalid status. Must be one of: active, archived, deleted") ∧
      (s.update now id u).2 = s) := by
  refine ⟨fun s ops h => (run_preserves s ops).2.2.2 h, ?_⟩
  intro s now id u it hget hname hstatus hval
  unfold ItemsState.update
  rw [hget]
  dsimp only
  rw [if_pos hname]
  dsimp only
  rw [if_neg hstatus]
  cases hu : u.status with
  | undef => exact absurd hu hstatus
  | str st =>
      rw [hu] at hval
      simp only [validStatusVal, Bool.or_eq_false_iff, beq_eq_false_iff_ne, ne_eq] at hval
      dsimp only
      rw [if_neg (by rintro (h | h | h) <;> simp [h] at hval)]
      exact ⟨rfl, rfl⟩
  | null => exact ⟨rfl, rfl⟩
  | bool b => exact ⟨rfl, rfl⟩
  | num n => exact ⟨rfl, rfl⟩

/-- C8 witness: a valid status update keeps the status invariant on the
seeded store, and `update(1, {status: "bogus"})` fails with the
`ValidationError` listing the valid statuses, leaving the store
unchanged. -/
theorem C8_witness :
    StatusInv ((ItemsService.init "t0").run [Op.update "t1" (JsVal.num (JSNum.fin 1))
        { id := JsVal.undef, name := JsVal.undef, status := JsVal.str "archived" }]) ∧
    ((ItemsService.init "t0").update "t1" (JsVal.num (JSNum.fin 1))
        { id := JsVal.undef, name := JsVal.undef, status := JsVal.str "bogus" }).1 =
      .error (.validation "Invalid status. Must be one of: active, archived, deleted") ∧
    ((ItemsService.init "t0").update "t1" (JsVal.num (JSNum.fin 1))
        { id := JsVal.undef, name := JsVal.undef, status := JsVal.str "bogus" }).2 =
      ItemsService.init "t0" := by
  refine ⟨C8_status_always_valid.1 (ItemsService.init "t0") _ (by decide), ?_⟩
  exact C8_status_always_valid.2 (ItemsService.init "t0") "t1" (JsVal.num (JSNum.fin 1))
    { id := JsVal.undef, name := JsVal.undef, status := JsVal.str "bogus" }
    { id := 1, name := "First item", createdAt := "t0", updatedAt := "t0", status := "active" }
    (by decide) (by decide) (by decide) (by decide)

lemma find?_decomp {α : Type} {p : α → Bool} {l : List α} {a : α} (h : l.find? p = some a) :
    ∃ pre post, l = pre ++ a :: post ∧ (∀ x ∈ pre, p x = false) ∧ p a = true := by
  induction l with
  | nil => simp at h
  | cons b rest ih =>
      by_cases hb : p b = true
      · rw [List.find?_cons_of_pos _ hb] at h
        simp only [Option.some.injEq] at h
        subst h
        exact ⟨[], rest, rfl, by simp, hb⟩
      · rw [List.find?_cons_of_neg _ (by simpa using hb)] at h
        obtain ⟨pre, post, heq, hpre, hpa⟩ := ih h
        refine ⟨b :: pre, post, by rw [heq, List.cons_append], ?_, hpa⟩
        intro x hx
        rcases List.mem_cons.mp hx with hx | hx
        · subst hx
          simpa using hb
        · exact hpre x hx

lemma setFirstById_append (pre : List Item) (a : Item) (post : List Item) (t : ℕ)
    (f : Item → Item) (hpre : ∀ x ∈ pre, x.id ≠ t) (ha : a.id = t) :
    setFirstById (pre ++ a :: post) t f = pre ++ f a :: post := by
  induction pre with
  | nil => simp [setFirstById, ha]
  | cons b rest ih =>
      have hb : b.id ≠ t := hpre b (List.mem_cons_self b rest)
      rw [List.cons_append, setFirstById, if_neg hb,
        ih (fun x hx => hpre x (List.mem_cons_of_mem b hx)), List.cons_append]

lemma eqNat_true {n : JSNum} {k : ℕ} (h : n.eqNat k = true) : n = .fin (k : ℚ) := by
  cases n with
  | fin q =>
      simp only [JSNum.eqNat, decide_eq_true_eq] at h
      rw [h]
  | nan => simp [JSNum.eqNat] at h
  | inf => simp [JSNum.eqNat] at h
  | ninf => simp [JSNum.eqNat] at h

lemma getById_ok {s : ItemsState} {id : JsVal} {it : Item} (h : s.getById id = .ok it) :
    s.items.find? (fun x => id.toNumber.eqNat x.id) = some it := by
  unfold ItemsState.getById at h
  by_cases hn : id.toNumber.isNaN
  · simp [hn] at h
  · rw [Bool.not_eq_true] at hn
    simp only [hn, Bool.false_eq_true, if_false] at h
    cases hf : s.items.find? (fun x => id.toNumber.eqNat x.id) with
    | some it₀ =>
        rw [hf] at h
        simp only [Except.ok.injEq] at h
        rw [h]
    | none =>
        rw [hf] at h
        simp at h

/-- C9: when `update` succeeds, only the fields present in the payload
change in the stored record: the store keeps its other records and its
counter untouched, and the updated record keeps its `id`, its
`createdAt`, its `name` when the payload has no `name`, and its `status`
when the payload has no `status`; only `updatedAt` is always refreshed to
the call instant. -/
theorem C9_update_changes_only_payload_fields (s : ItemsState) (now : String) (id : JsVal)
    (u : ItemUpdates) (it' : Item) (h : (s.update now id u).1 = .ok it') :
    ∃ pre it₀ post, s.items = pre ++ it₀ :: post ∧
      (s.update now id u).2 = { items := pre ++ it' :: post, nextId := s.nextId } ∧
      it'.id = it₀.id ∧ it'.createdAt = it₀.createdAt ∧
      (u.name = .undef → it'.name = it₀.name) ∧
      (u.status = .undef → it'.status = it₀.status) ∧
      it'.updatedAt = now := by
  unfold ItemsState.update at h ⊢
  cases hget : s.getById id with
  | error e =>
      rw [hget] at h
      simp at h
  | ok item0 =>
      rw [hget] at h
      dsimp only at h ⊢
      obtain ⟨pre, post, hsplit, hpre, hpa⟩ := find?_decomp (getById_ok hget)
      have hpa' : id.toNumber.eqNat item0.id = true := by simpa using hpa
      have hn : id.toNumber = .fin ((item0.id : ℕ) : ℚ) := eqNat_true hpa'
      have hpre' : ∀ x ∈ pre, x.id ≠ item0.id := by
        intro x hx hxx
        have hfalse := hpre x hx
        rw [hn] at hfalse
        simp only [JSNum.eqNat, decide_eq_false_iff_not] at hfalse
        exact hfalse (by exact_mod_cast hxx.symm)
      by_cases hname : u.name = .undef
      · rw [if_pos hname] at h ⊢
        dsimp only at h ⊢
        by_cases hstatus : u.status = .undef
        · rw [if_pos hstatus] at h ⊢
          dsimp only at h ⊢
          simp only [Except.ok.injEq] at h
          subst h
          refine ⟨pre, item0, post, hsplit, ?_, rfl, rfl, fun _ => rfl, fun _ => rfl, rfl⟩
          rw [hsplit, setFirstById_append pre item0 post item0.id _ hpre' rfl]
        · rw [if_neg hstatus] at h ⊢
          cases hu : u.status with
          | undef => exact absurd hu hstatus
          | str st =>
              rw [hu] at h
              dsimp only at h ⊢
              by_cases hvalid : st = "active" ∨ st = "archived" ∨ st = "deleted"
              · rw [if_pos hvalid] at h ⊢
                dsimp only at h ⊢
                simp only [Except.ok.injEq] at h
                subst h
                refine ⟨pre, item0, post, hsplit, ?_, rfl, rfl, fun _ => rfl,
                  fun hst => by simp at hst, rfl⟩
                rw [hsplit, setFirstById_append pre item0 post item0.id _ hpre' rfl,
                  setFirstById_append pre { item0 with status := st } post item0.id _ hpre' rfl]
              · rw [if_neg hvalid] at h
                simp at h
          | null =>
              rw [hu] at h
              simp at h
          | bool b =>
              rw [hu] at h
              simp at h
          | num n =>
              rw [hu] at h
              simp at h
      · rw [if_neg hname] at h ⊢
        cases hvn : ItemsState.validateName u.name with
        | error e =>
            rw [hvn] at h
            simp at h
        | ok vn =>
            rw [hvn] at h
            dsimp only at h ⊢
            cases hdup : s.items.find? (fun i =>
                !(id.strictEqNat i.id) && (lowerStr i.name == lowerStr vn)) with
            | some dup =>
                rw [hdup] at h
                simp at h
            | none =>
                rw [hdup] at h
                dsimp only at h ⊢
                by_cases hstatus : u.status = .undef
                · rw [if_pos hstatus] at h ⊢
                  dsimp only at h ⊢
                  simp only [Except.ok.injEq] at h
                  subst h
                  refine ⟨pre, item0, post, hsplit, ?_, rfl, rfl,
                    fun hnm => absurd hnm hname, fun _ => rfl, rfl⟩
                  rw [hsplit, setFirstById_append pre item0 post item0.id _ hpre' rfl,
                    setFirstById_append pre { item0 with name := vn } post item0.id _ hpre' rfl]
                · rw [if_neg hstatus] at h ⊢
                  cases hu : u.status with
                  | undef => exact absurd hu hstatus
                  | str st =>
                      rw [hu] at h
                      dsimp only at h ⊢
                      by_cases hvalid : st = "active" ∨ st = "archived" ∨ st = "deleted"
                      · rw [if_pos hvalid] at h ⊢
                        dsimp only at h ⊢
                        simp only [Except.ok.injEq] at h
                        subst h
                        refine ⟨pre, item0, post, hsplit, ?_, rfl, rfl,
                          fun hnm => absurd hnm hname, fun hst => by simp at hst, rfl⟩
                        rw [hsplit, setFirstById_append pre item0 post item0.id _ hpre' rfl,
                          setFirstById_append pre { item0 with name := vn } post item0.id _ hpre' rfl,
                          setFirstById_append pre { item0 with name := vn, status := st } post
                            item0.id _ hpre' rfl]
                      · rw [if_neg hvalid] at h
                        simp at h
                  | null =>
                      rw [hu] at h
                      simp at h
                  | bool b =>
                      rw [hu] at h
                      simp at h
                  | num n =>
                      rw [hu] at h
                      simp at h

/-- C9 witness: a successful rename of record 1 with a payload carrying
only `name`. -/
theorem C9_witness :
    ∃ pre it₀ post, (ItemsService.init "t0").items = pre ++ it₀ :: post ∧
      ((ItemsService.init "t0").update "t1" (JsVal.num (JSNum.fin 1))
          { id := JsVal.undef, name := JsVal.str "Renamed", status := JsVal.undef }).2 =
        { items := pre ++ (⟨1, "Renamed", "t0", "t1", "active"⟩ : Item) :: post,
          nextId := (ItemsService.init "t0").nextId } ∧
      (⟨1, "Renamed", "t0", "t1", "active"⟩ : Item).id = it₀.id ∧
      (⟨1, "Renamed", "t0", "t1", "active"⟩ : Item).createdAt = it₀.createdAt ∧
      ((JsVal.str "Renamed") = JsVal.undef →
        (⟨1, "Renamed", "t0", "t1", "active"⟩ : Item).name = it₀.name) ∧
      (JsVal.undef = JsVal.undef →
        (⟨1, "Renamed", "t0", "t1", "active"⟩ : Item).status = it₀.status) ∧
      (⟨1, "Renamed", "t0", "t1", "active"⟩ : Item).updatedAt = "t1" :=
  C9_update_changes_only_payload_fields (ItemsService.init "t0") "t1"
    (JsVal.num (JSNum.fin 1))
    { id := JsVal.undef, name := JsVal.str "Renamed", status := JsVal.undef }
    ⟨1, "Renamed", "t0", "t1", "active"⟩
    (by decide)

lemma getPaginated_limit_eq (s : ItemsState) (page limit : JsVal) (status : Option String) :
    (s.getPaginated page limit status).limit =
      jsMax (.fin 1) (jsMin (.fin 100) (jsOrDefault limit.toNumber 10)) := rfl

lemma getPaginated_items_eq (s : ItemsState) (page limit : JsVal) (status : Option String) :
    (s.getPaginated page limit status).items =
      ((filterByStatus s.items status).take (sliceIndex (filterByStatus s.items status).length
        (jsAdd (jsMul (jsSub (jsMax (.fin 1) (jsOrDefault page.toNumber 1)) (.fin 1))
            (jsMax (.fin 1) (jsMin (.fin 100) (jsOrDefault limit.toNumber 10))))
          (jsMax (.fin 1) (jsMin (.fin 100) (jsOrDefault limit.toNumber 10)))))).drop
        (sliceIndex (filterByStatus s.items status).length
          (jsMul (jsSub (jsMax (.fin 1) (jsOrDefault page.toNumber 1)) (.fin 1))
            (jsMax (.fin 1) (jsMin (.fin 100) (jsOrDefault limit.toNumber 10))))) := rfl

lemma limitNum_spec (n : JSNum) :
    ∃ l : ℚ, jsMax (.fin 1) (jsMin (.fin 100) (jsOrDefault n 10)) = .fin l ∧
      1 ≤ l ∧ l ≤ 100 := by
  cases n with
  | nan =>
      refine ⟨10, ?_, by norm_num, by norm_num⟩
      norm_num [jsOrDefault, jsMin, jsMax]
  | inf =>
      refine ⟨100, ?_, by norm_num, by norm_num⟩
      norm_num [jsOrDefault, jsMin, jsMax]
  | ninf =>
      exact ⟨1, by norm_num [jsOrDefault, jsMin, jsMax], le_rfl, by norm_num⟩
  | fin q =>
      by_cases hq : q = 0
      · refine ⟨10, ?_, by norm_num, by norm_num⟩
        norm_num [jsOrDefault, hq, jsMin, jsMax]
      · refine ⟨max 1 (min 100 q), ?_, le_max_left _ _, ?_⟩
        · simp [jsOrDefault, hq, jsMin, jsMax]
        · exact max_le (by norm_num) (min_le_left _ _)

lemma pageNum_spec (n : JSNum) :
    jsMax (.fin 1) (jsOrDefault n 1) = .inf ∨
      ∃ p : ℚ, jsMax (.fin 1) (jsOrDefault n 1) = .fin p ∧ 1 ≤ p := by
  cases n with
  | nan => exact Or.inr ⟨1, by simp [jsOrDefault, jsMax], le_rfl⟩
  | inf => exact Or.inl (by simp [jsOrDefault, jsMax])
  | ninf => exact Or.inr ⟨1, by simp [jsOrDefault, jsMax], le_rfl⟩
  | fin q =>
      by_cases hq : q = 0
      · exact Or.inr ⟨1, by simp [jsOrDefault, hq, jsMax], le_rfl⟩
      · exact Or.inr ⟨max 1 q, by simp [jsOrDefault, hq, jsMax], le_max_left _ _⟩

lemma take_min_eq {α : Type} (l : List α) (x : ℕ) : l.take (min l.length x) = l.take x := by
  rcases le_total x l.length with h | h
  · rw [min_eq_right h]
  · rw [min_eq_left h, List.take_of_length_le h, List.take_of_length_le le_rfl]

lemma slice_drop_take {α : Type} (l : List α) (a b : ℕ) :
    (l.take (min l.length (a + b))).drop (min l.length a) = (l.drop a).take b := by
  rw [take_min_eq]
  rcases le_total a l.length with h | h
  · rw [min_eq_right h, List.drop_take]
    congr 1
    omega
  · rw [min_eq_left h]
    have h1 : l.drop a = [] := List.drop_eq_nil_of_le h
    rw [h1, List.take_nil]
    apply List.drop_eq_nil_of_le
    rw [List.length_take]
    exact min_le_right _ _

lemma sliceIndex_natCast (len k : ℕ) : sliceIndex len (.fin (k : ℚ)) = min len k := by
  simp [sliceIndex, Nat.cast_nonneg, Int.floor_natCast]

lemma pageNum_int (p : ℕ) (hp : 1 ≤ p) :
    jsMax (.fin 1) (jsOrDefault (.fin (p : ℚ)) 1) = .fin (p : ℚ) := by
  have hne : ((p : ℚ)) ≠ 0 := Nat.cast_ne_zero.mpr (by omega)
  simp only [jsOrDefault, if_neg hne, jsMax, JSNum.fin.injEq]
  exact max_eq_right (by exact_mod_cast hp)

lemma limitNum_int (l : ℕ) (h1 : 1 ≤ l) (h2 : l ≤ 100) :
    jsMax (.fin 1) (jsMin (.fin 100) (jsOrDefault (.fin (l : ℚ)) 10)) = .fin (l : ℚ) := by
  have hne : ((l : ℚ)) ≠ 0 := Nat.cast_ne_zero.mpr (by omega)
  simp only [jsOrDefault, if_neg hne, jsMin, jsMax, JSNum.fin.injEq]
  rw [min_eq_right (by exact_mod_cast h2)]
  exact max_eq_right (by exact_mod_cast h1)

/-- C10 (amended): `getPaginated` is total on every page/limit/status
argument: the effective limit is a finite number clamped into `[1, 100]`
(with NaN and 0 falling back to 10), the effective page is at least 1 (or
+Infinity for an infinite page argument, which yields an empty page), and
the returned records are a contiguous slice of the status-filtered store
in insertion order, taken between the truncated indices
`⌊offset⌋` and `⌊offset + limit⌋` with `offset = (page-1)*limit`.  When
the page and limit arguments coerce to integers in range, this is exactly
the claim's contiguous slice starting at offset `(page-1)*limit` with at
most `limit` records; for fractional arguments the truncation can return
more records than the fractional effective limit. -/
theorem C10_get_paginated_clamps_and_slices (s : ItemsState) (page limit : JsVal)
    (status : Option String) :
    (∃ l : ℚ, (s.getPaginated page limit status).limit = .fin l ∧ 1 ≤ l ∧ l ≤ 100) ∧
    ((s.getPaginated page limit status).page = .inf ∨
      ∃ p : ℚ, (s.getPaginated page limit status).page = .fin p ∧ 1 ≤ p) ∧
    (∃ a m : ℕ, (s.getPaginated page limit status).items =
        ((filterByStatus s.items status).drop a).take m) ∧
    (∀ p l : ℕ, 1 ≤ p → 1 ≤ l → l ≤ 100 →
        page.toNumber = .fin (p : ℚ) → limit.toNumber = .fin (l : ℚ) →
        (s.getPaginated page limit status).items =
          ((filterByStatus s.items status).drop ((p - 1) * l)).take l ∧
        (s.getPaginated page limit status).items.length ≤ l) := by
  refine ⟨?_, ?_, ?_, ?_⟩
  · exact limitNum_spec limit.toNumber
  · exact pageNum_spec page.toNumber
  · exact ⟨_, _, List.drop_take _ _ _⟩
  · intro p l hp hl hl100 hpn hln
    have hitems : (s.getPaginated page limit status).items =
        ((filterByStatus s.items status).take
          (sliceIndex (filterByStatus s.items status).length
            (jsAdd (jsMul (jsSub (jsMax (.fin 1) (jsOrDefault page.toNumber 1)) (.fin 1))
                (jsMax (.fin 1) (jsMin (.fin 100) (jsOrDefault limit.toNumber 10))))
              (jsMax (.fin 1) (jsMin (.fin 100) (jsOrDefault limit.toNumber 10)))))).drop
          (sliceIndex (filterByStatus s.items status).length
            (jsMul (jsSub (jsMax (.fin 1) (jsOrDefault page.toNumber 1)) (.fin 1))
              (jsMax (.fin 1) (jsMin (.fin 100) (jsOrDefault limit.toNumber 10))))) := rfl
    rw [hitems, hpn, hln, pageNum_int p hp, limitNum_int l hl hl100]
    have hsub : jsSub (.fin (p : ℚ)) (.fin 1) = .fin (((p - 1 : ℕ) : ℚ)) := by
      simp only [jsSub, JSNum.fin.injEq]
      push_cast [hp]
      ring
    have hmul : jsMul (.fin (((p - 1 : ℕ) : ℚ))) (.fin (l : ℚ)) =
        .fin ((((p - 1) * l : ℕ)) : ℚ) := by
      simp only [jsMul, JSNum.fin.injEq]
      push_cast
      ring
    have hadd : jsAdd (.fin ((((p - 1) * l : ℕ)) : ℚ)) (.fin (l : ℚ)) =
        .fin ((((p - 1) * l + l : ℕ)) : ℚ) := by
      simp only [jsAdd, JSNum.fin.injEq]
      push_cast
      ring
    rw [hsub, hmul, hadd, sliceIndex_natCast, sliceIndex_natCast, slice_drop_take]
    refine ⟨rfl, ?_⟩
    rw [List.length_take]
    exact min_le_left _ _

/-- C10 witness: the integer-argument slice at page "2", limit "10" on
the seeded store. -/
theorem C10_witness :
    ((ItemsService.init "t0").getPaginated (JsVal.str "2") (JsVal.str "10") none).items =
      ((filterByStatus (ItemsService.init "t0").items none).drop ((2 - 1) * 10)).take 10 ∧
    ((ItemsService.init "t0").getPaginated (JsVal.str "2") (JsVal.str "10") none).items.length
      ≤ 10 :=
  (C10_get_paginated_clamps_and_slices (ItemsService.init "t0") (JsVal.str "2")
    (JsVal.str "10") none).2.2.2 2 10 (by decide) (by decide) (by decide) (by decide) (by decide)

/-- C10 counterexample: with the fractional limit 1.5 and page 2 on a
3-record store, the slice-index truncation of `Array.prototype.slice`
returns 2 records although the clamped "effective limit" the claim bounds
the page by is 1.5, and the slice starts at index 1 rather than at the
claimed offset `(page-1)*limit = 1.5`. -/
theorem C10_counterexample :
    (((ItemsService.init "t0").run [Op.create "t1" (JsVal.str "Widget")]).getPaginated
        (JsVal.num (JSNum.fin 2)) (JsVal.num (JSNum.fin (3/2))) none).limit =
      JSNum.fin (3/2) ∧
    (((ItemsService.init "t0").run [Op.create "t1" (JsVal.str "Widget")]).getPaginated
        (JsVal.num (JSNum.fin 2)) (JsVal.num (JSNum.fin (3/2))) none).items.length = 2 ∧
    ¬((2 : ℚ) ≤ 3/2) := by
  have hlim1 : jsOrDefault (JSNum.fin (3/2)) 10 = JSNum.fin (3/2) := by
    simp only [jsOrDefault]
    rw [if_neg (by norm_num)]
  have hlim2 : jsMin (JSNum.fin 100) (JSNum.fin (3/2)) = JSNum.fin (3/2) := by
    simp only [jsMin, JSNum.fin.injEq]
    exact min_eq_right (by norm_num)
  have hlim3 : jsMax (JSNum.fin 1) (JSNum.fin (3/2)) = JSNum.fin (3/2) := by
    simp only [jsMax, JSNum.fin.injEq]
    exact max_eq_right (by norm_num)
  have hpage1 : jsOrDefault (JSNum.fin 2) 1 = JSNum.fin 2 := by
    simp only [jsOrDefault]
    rw [if_neg (by norm_num)]
  have hpage2 : jsMax (JSNum.fin 1) (JSNum.fin 2) = JSNum.fin 2 := by
    simp only [jsMax, JSNum.fin.injEq]
    exact max_eq_right (by norm_num)
  have hsub : jsSub (JSNum.fin 2) (JSNum.fin 1) = JSNum.fin 1 := by
    simp only [jsSub, JSNum.fin.injEq]
    norm_num
  have hmul : jsMul (JSNum.fin 1) (JSNum.fin (3/2)) = JSNum.fin (3/2) := by
    simp only [jsMul, JSNum.fin.injEq]
    norm_num
  have hadd : jsAdd (JSNum.fin (3/2)) (JSNum.fin (3/2)) = JSNum.fin 3 := by
    simp only [jsAdd, JSNum.fin.injEq]
    norm_num
  have hsliceOff : sliceIndex 3 (JSNum.fin (3/2)) = 1 := by
    simp only [sliceIndex]
    rw [if_pos (by norm_num), show ⌊(3/2 : ℚ)⌋ = 1 by norm_num [Int.floor_eq_iff]]
    rfl
  have hsliceEnd : sliceIndex 3 (JSNum.fin 3) = 3 := by
    simp only [sliceIndex]
    rw [if_pos (by norm_num), show ⌊(3 : ℚ)⌋ = 3 by norm_num [Int.floor_eq_iff]]
    rfl
  have hstore : ((ItemsService.init "t0").run [Op.create "t1" (JsVal.str "Widget")]).items =
      [⟨1, "First item", "t0", "t0", "active"⟩, ⟨2, "Another item", "t0", "t0", "active"⟩,
       ⟨3, "Widget", "t1", "t1", "active"⟩] := by decide
  refine ⟨?_, ?_, by norm_num⟩
  · rw [getPaginated_limit_eq]
    show jsMax (JSNum.fin 1) (jsMin (JSNum.fin 100) (jsOrDefault (JSNum.fin (3/2)) 10)) =
      JSNum.fin (3/2)
    rw [hlim1, hlim2, hlim3]
  · rw [getPaginated_items_eq]
    show (((filterByStatus _ none).take (sliceIndex (filterByStatus _ none).length
        (jsAdd (jsMul (jsSub (jsMax (JSNum.fin 1) (jsOrDefault (JSNum.fin 2) 1)) (JSNum.fin 1))
            (jsMax (JSNum.fin 1) (jsMin (JSNum.fin 100) (jsOrDefault (JSNum.fin (3/2)) 10))))
          (jsMax (JSNum.fin 1) (jsMin (JSNum.fin 100)
            (jsOrDefault (JSNum.fin (3/2)) 10)))))).drop
        (sliceIndex (filterByStatus _ none).length
          (jsMul (jsSub (jsMax (JSNum.fin 1) (jsOrDefault (JSNum.fin 2) 1)) (JSNum.fin 1))
            (jsMax (JSNum.fin 1) (jsMin (JSNum.fin 100)
              (jsOrDefault (JSNum.fin (3/2)) 10)))))).length = 2
    rw [show filterByStatus
        ((ItemsService.init "t0").run [Op.create "t1" (JsVal.str "Widget")]).items none =
        ((ItemsService.init "t0").run [Op.create "t1" (JsVal.str "Widget")]).items from rfl,
      hstore]
    rw [hlim1, hlim2, hlim3, hpage1, hpage2, hsub, hmul, hadd]
    rw [show ([⟨1, "First item", "t0", "t0", "active"⟩,
        ⟨2, "Another item", "t0", "t0", "active"⟩,
        ⟨3, "Widget", "t1", "t1", "active"⟩] : List Item).length = 3 from rfl]
    rw [hsliceOff, hsliceEnd]
    rfl

end Noanoa
